import Mathlib

/-! Shallow embedding of the authorization and audit core of the
platform-event-intelligence MCP service: caller contexts and the
entitlement evaluator (src/types/index.ts), credential resolution
(src/mcp/auth.ts), the audit recorder (src/services/audit.ts), and the
four query-gate operations (src/services/events.ts,
src/services/impact-summary.ts).  Times are modelled as milliseconds
since the Unix epoch (Nat); external collaborators (SHA-256 hashing, the
embedding generator, the vector-distance operator of the storage engine,
and the LLM summarizer) are parameters of the operations that use them. -/

namespace PEI

/-! Timestamp rendering, modelling Date.prototype.toISOString for the
four-digit-year era (the range every clock reading of this service lies
in): days are converted to a civil date with the standard
era/year-of-era arithmetic and every field is rendered as fixed-width
decimal digits. -/

/-- Decimal digit character for n mod 10. -/
def digitChar (n : Nat) : Char := Char.ofNat (48 + n % 10)

/-- Two fixed decimal digits. -/
def pad2 (n : Nat) : List Char := [digitChar (n / 10), digitChar n]

/-- Three fixed decimal digits. -/
def pad3 (n : Nat) : List Char := [digitChar (n / 100), digitChar (n / 10), digitChar n]

/-- Four fixed decimal digits. -/
def pad4 (n : Nat) : List Char :=
  [digitChar (n / 1000), digitChar (n / 100), digitChar (n / 10), digitChar n]

/-- Convert a count of days since 1970-01-01 to a civil (year, month, day). -/
def civilFromDays (z0 : Nat) : Nat × Nat × Nat :=
  let z := z0 + 719468
  let era := z / 146097
  let doe := z % 146097
  let yoe := (doe - doe / 1460 + doe / 36524 - doe / 146097) / 365
  let y := yoe + era * 400
  let doy := doe - (365 * yoe + yoe / 4 - yoe / 100)
  let mp := (5 * doy + 2) / 153
  let d := doy - (153 * mp + 2) / 5 + 1
  let m := if mp < 10 then mp + 3 else mp - 9
  (if m ≤ 2 then y + 1 else y, m, d)

/-- Render epoch milliseconds in the yyyy-MM-ddTHH:mm:ss.sssZ shape
produced by Date.prototype.toISOString. -/
def toIso (ms : Nat) : String :=
  let days := ms / 86400000
  let rem := ms % 86400000
  let c := civilFromDays days
  String.mk (pad4 c.1 ++ ['-'] ++ pad2 c.2.1 ++ ['-'] ++ pad2 c.2.2 ++ ['T'] ++
    pad2 (rem / 3600000) ++ [':'] ++ pad2 (rem / 60000 % 60) ++ [':'] ++
    pad2 (rem / 1000 % 60) ++ ['.'] ++ pad3 (rem % 1000) ++ ['Z'])

/-- Parse check: the string has the exact ISO-8601 millisecond-precision
UTC shape yyyy-MM-ddTHH:mm:ss.sssZ. -/
def isIso8601 (s : String) : Bool :=
  match s.data with
  | [y1, y2, y3, y4, '-', o1, o2, '-', d1, d2, 'T', h1, h2, ':', n1, n2, ':',
     s1, s2, '.', f1, f2, f3, 'Z'] =>
    [y1, y2, y3, y4, o1, o2, d1, d2, h1, h2, n1, n2, s1, s2, f1, f2, f3].all Char.isDigit
  | _ => false

theorem digitChar_isDigit (n : Nat) : (digitChar n).isDigit = true := by
  unfold digitChar
  have h : n % 10 < 10 := Nat.mod_lt _ (by norm_num)
  interval_cases h : (n % 10) <;> rfl

theorem isIso8601_toIso (ms : Nat) : isIso8601 (toIso ms) = true := by
  simp [toIso, isIso8601, pad4, pad3, pad2, digitChar_isDigit]

/-! Data model: caller contexts and the entitlement evaluator,
translated from src/types/index.ts. -/

/-- McpCallerContext from src/types/index.ts. -/
structure McpCallerContext where
  callerId : String
  authorizedServices : List String
  callerName : Option String := none
  callerType : String := "token"
deriving DecidableEq

/-- Return type of getAuthorizedServiceFilter: the sentinel star
(universal access, no filtering) or the literal entitlement list. -/
inductive ServiceFilter where
  | star : ServiceFilter
  | ids : List String → ServiceFilter
deriving DecidableEq

/-- isAuthorizedForService from src/types/index.ts. -/
def isAuthorizedForService (context : McpCallerContext) (serviceId : String) : Bool :=
  if context.authorizedServices.contains "*" then true
  else context.authorizedServices.contains serviceId

/-- getAuthorizedServiceFilter from src/types/index.ts. -/
def getAuthorizedServiceFilter (context : McpCallerContext) : ServiceFilter :=
  if context.authorizedServices.contains "*" then ServiceFilter.star
  else ServiceFilter.ids context.authorizedServices

/-- Evaluation of the returned filter on the serviceId of one row: the star
sentinel admits every row, a list admits the rows whose serviceId it
contains (the inArray condition the query paths push). -/
def passesFilter : ServiceFilter → String → Bool
  | ServiceFilter.star, _ => true
  | ServiceFilter.ids l, s => l.contains s

/-! Audit recorder, translated from src/services/audit.ts.  Metadata is
modelled as a list of string key/value pairs. -/

/-- AuditLogEntry from src/services/audit.ts. -/
structure AuditLogEntry where
  timestamp : String
  level : String
  action : String
  callerId : String
  callerName : Option String := none
  success : Bool
  resourceType : Option String := none
  resourceId : Option String := none
  serviceId : Option String := none
  message : Option String := none
  metadata : List (String × String) := []
deriving DecidableEq

/-- auditEventAccess from src/services/audit.ts: auditLog with level
INFO, success true, and the event-access action, timestamped at the
clock reading now. -/
def auditEventAccess (now : Nat) (callerId : String) (callerName : Option String)
    (action : String) (resultCount : Nat) (serviceId : Option String)
    (metadata : List (String × String)) : AuditLogEntry :=
  { timestamp := toIso now
    level := "INFO"
    action := "event_access_" ++ action
    callerId := callerId
    callerName := callerName
    success := true
    resourceType := some "event"
    serviceId := serviceId
    message := some ("Accessed " ++ toString resultCount ++ " event(s)")
    metadata := metadata }

/-- auditAuthFailure from src/services/audit.ts. -/
def auditAuthFailure (now : Nat) (callerId : String) (reason : String)
    (metadata : List (String × String)) : AuditLogEntry :=
  { timestamp := toIso now
    level := "WARNING"
    action := "authentication_failure"
    callerId := callerId
    success := false
    message := some ("Authentication failed: " ++ reason)
    metadata := metadata }

/-- auditAuthSuccess from src/services/audit.ts. -/
def auditAuthSuccess (now : Nat) (callerId : String) (callerName : Option String)
    (metadata : List (String × String)) : AuditLogEntry :=
  { timestamp := toIso now
    level := "INFO"
    action := "authentication_success"
    callerId := callerId
    callerName := callerName
    success := true
    message := some "Authentication successful"
    metadata := metadata }

/-- JavaScript truthiness for an optional string: the empty string is
falsy. -/
def truthyStr : Option String → Option String
  | none => none
  | some s => if s == "" then none else some s

/-- The a or-else b fallback of JavaScript, on optional strings. -/
def orElseTruthy (a b : Option String) : Option String :=
  match truthyStr a with
  | some s => some s
  | none => truthyStr b

/-! Event rows (src/db/schema.ts) and the SearchResult shape of
src/services/events.ts. -/

/-- One row of the events table. -/
structure EventRow where
  id : String
  serviceId : String
  eventType : String
  severity : String
  title : String
  description : Option String
  occurredAt : Nat
  embedding : Option (List Int)
deriving DecidableEq

/-- SearchResult from src/services/events.ts. -/
structure SearchResult where
  id : String
  serviceId : String
  eventType : String
  severity : String
  title : String
  description : Option String
  occurredAt : Nat
  score : Option Int := none
deriving DecidableEq

/-- SearchEventsInput from src/types/index.ts; date strings are carried
already parsed to epoch milliseconds. -/
structure SearchEventsInput where
  query : String
  serviceId : Option String := none
  eventType : Option String := none
  severity : Option String := none
  startDate : Option Nat := none
  endDate : Option Nat := none
  limit : Nat := 10
  useSemanticSearch : Bool := true
deriving DecidableEq

/-- Projection of a row to the selected SearchResult columns. -/
def toResult (e : EventRow) : SearchResult :=
  { id := e.id, serviceId := e.serviceId, eventType := e.eventType,
    severity := e.severity, title := e.title, description := e.description,
    occurredAt := e.occurredAt }

/-- ORDER BY model: insertion of one element by a boolean comparison. -/
def insertLe (le : α → α → Bool) (a : α) : List α → List α
  | [] => [a]
  | b :: bs => if le a b then a :: b :: bs else b :: insertLe le a bs

/-- ORDER BY model: sort a result set by a boolean comparison. -/
def sortLe (le : α → α → Bool) : List α → List α
  | [] => []
  | a :: as => insertLe le a (sortLe le as)

/-- The desc(events.occurredAt) ordering. -/
def byRecencyDesc (a b : EventRow) : Bool := decide (b.occurredAt ≤ a.occurredAt)

/-! The ILIKE pattern dialect of the storage engine and the
escapeLikePattern sanitiser of src/services/events.ts.  A pattern is
lexed into tokens (percent = unbounded wildcard, underscore =
single-character wildcard, backslash-escaped or plain characters =
literals); a pattern ending in a bare escape character is malformed and
the query fails.  Character comparison is case-insensitive (the I of
ILIKE), modelled by folding ASCII uppercase to lowercase on both
sides. -/

/-- ASCII lowercase folding used by the case-insensitive comparison. -/
def lcChar (c : Char) : Char :=
  if 'A' ≤ c ∧ c ≤ 'Z' then Char.ofNat (c.toNat + 32) else c

/-- One lexed ILIKE pattern token. -/
inductive LikeTok where
  | any : LikeTok
  | one : LikeTok
  | lit : Char → LikeTok
deriving DecidableEq

/-- Lexer state machine for ILIKE patterns; the boolean records whether
the previous character was an unconsumed escape.  An escape pending at
the end of the pattern is malformed (none), which makes the query
fail. -/
def lexLikeAux : Bool → List Char → Option (List LikeTok)
  | false, [] => some []
  | true, [] => none
  | true, c :: rest => (lexLikeAux false rest).map (fun l => LikeTok.lit c :: l)
  | false, c :: rest =>
    if c == '\\' then lexLikeAux true rest
    else if c == '%' then (lexLikeAux false rest).map (fun l => LikeTok.any :: l)
    else if c == '_' then (lexLikeAux false rest).map (fun l => LikeTok.one :: l)
    else (lexLikeAux false rest).map (fun l => LikeTok.lit c :: l)

/-- Lex an ILIKE pattern; none when the pattern ends in a bare escape
character. -/
def lexLike (p : List Char) : Option (List LikeTok) := lexLikeAux false p

/-- All suffixes of a text, longest first. -/
def suffixesOf : List Char → List (List Char)
  | [] => [[]]
  | c :: ts => (c :: ts) :: suffixesOf ts

/-- Match a lexed pattern against a text, comparing literal characters
case-insensitively; a percent wildcard consumes any prefix, i.e. the
rest of the pattern must match some suffix of the text. -/
def tokMatch : List LikeTok → List Char → Bool
  | [], t => t.isEmpty
  | LikeTok.any :: ps, t => (suffixesOf t).any (fun s => tokMatch ps s)
  | LikeTok.one :: _, [] => false
  | LikeTok.one :: ps, _ :: ts => tokMatch ps ts
  | LikeTok.lit _ :: _, [] => false
  | LikeTok.lit c :: ps, c2 :: ts => (lcChar c2 == lcChar c) && tokMatch ps ts

/-- One global regex replace of a character by a string, as
String.prototype.replace with the g flag. -/
def replaceAllC (c : Char) (r : List Char) : List Char → List Char
  | [] => []
  | x :: xs => (if x == c then r else [x]) ++ replaceAllC c r xs

/-- escapeLikePattern from src/services/events.ts: three sequential
global replaces, doubling backslashes first and then escaping percent
and underscore. -/
def escapeLikePattern (s : String) : String :=
  String.mk (replaceAllC '_' ['\\', '_']
    (replaceAllC '%' ['\\', '%']
      (replaceAllC '\\' ['\\', '\\'] s.data)))

/-! The four query-gate operations of src/services/events.ts and
src/services/impact-summary.ts.  Each returns its caller-visible result
together with the audit entries it emits and the number of reads it
issues to storage. -/

/-- Outcome of one query-gate operation: the caller-visible result, the
audit entries emitted, and how many reads were issued to storage. -/
structure OpOut (α : Type) where
  result : α
  audits : List AuditLogEntry
  queries : Nat
deriving DecidableEq

/-- An optional equality filter pushed only when the input field is
truthy (JavaScript: the empty string is falsy and pushes nothing). -/
def optStrCond (field : Option String) (v : String) : Bool :=
  match truthyStr field with
  | some s => s == v
  | none => true

/-- The conjunction of the authorization inclusion filter and the
optional serviceId/eventType/severity/date conditions, shared by
keywordSearch and semanticSearch. -/
def rowBaseOk (input : SearchEventsInput) (flt : ServiceFilter) (e : EventRow) : Bool :=
  passesFilter flt e.serviceId &&
  optStrCond input.serviceId e.serviceId &&
  optStrCond input.eventType e.eventType &&
  optStrCond input.severity e.severity &&
  (match input.startDate with | some d => decide (d ≤ e.occurredAt) | none => true) &&
  (match input.endDate with | some d => decide (e.occurredAt ≤ d) | none => true)

/-- The keyword condition: title ILIKE pattern OR description ILIKE
pattern, with the SQL null semantics that a null description
contributes no match. -/
def rowKeywordOk (toks : List LikeTok) (e : EventRow) : Bool :=
  tokMatch toks e.title.data ||
  (match e.description with | some d => tokMatch toks d.data | none => false)

/-- keywordSearch from src/services/events.ts: escape the query, embed
it between percent wildcards, filter by the authorization and optional
conditions plus the ILIKE condition, order by recency descending and
cap at the limit.  none models a malformed-pattern query failure. -/
def keywordSearch (db : List EventRow) (input : SearchEventsInput)
    (context : McpCallerContext) : Option (List SearchResult) :=
  let flt := getAuthorizedServiceFilter context
  match lexLike ("%" ++ escapeLikePattern input.query ++ "%").data with
  | none => none
  | some toks =>
    some (((sortLe byRecencyDesc
      (db.filter (fun e => rowBaseOk input flt e && rowKeywordOk toks e))).take
        input.limit).map toResult)

/-- Distance from the embedding of a row to the query embedding under
the vector-distance operator of the storage engine. -/
def embDist (dist : List Int → List Int → Int) (qe : List Int) (e : EventRow) : Int :=
  match e.embedding with
  | some v => dist v qe
  | none => 0

/-- semanticSearch from src/services/events.ts: embed the query via the
collaborator, apply the same authorization inclusion filter as
keywordSearch plus the optional conditions, keep only rows that have an
embedding, order by distance ascending, cap at the limit and attach the
similarity score. -/
def semanticSearch (db : List EventRow) (emb : String → List Int)
    (dist : List Int → List Int → Int) (input : SearchEventsInput)
    (context : McpCallerContext) : List SearchResult :=
  let qe := emb input.query
  let flt := getAuthorizedServiceFilter context
  let rows := db.filter (fun e => rowBaseOk input flt e && e.embedding.isSome)
  ((sortLe (fun a b => decide (embDist dist qe a ≤ embDist dist qe b)) rows).take
    input.limit).map
    (fun e => { toResult e with score := some (1 - embDist dist qe e) })

/-- Metadata attached to the search audit entry. -/
def searchMetadata (input : SearchEventsInput) : List (String × String) :=
  [("query", input.query),
   ("searchType", if input.useSemanticSearch then "semantic" else "keyword"),
   ("eventType", input.eventType.getD ""),
   ("severity", input.severity.getD ""),
   ("startDate", match input.startDate with | some d => toIso d | none => ""),
   ("endDate", match input.endDate with | some d => toIso d | none => "")]

/-- searchEvents from src/services/events.ts: route to semantic or
keyword search on the useSemanticSearch flag, then emit one search
audit entry carrying the result count. -/
def searchEvents (db : List EventRow) (emb : String → List Int)
    (dist : List Int → List Int → Int) (input : SearchEventsInput)
    (context : McpCallerContext) (now : Nat) : Option (OpOut (List SearchResult)) :=
  match (if input.useSemanticSearch then some (semanticSearch db emb dist input context)
         else keywordSearch db input context) with
  | none => none
  | some results =>
    some { result := results
           audits := [auditEventAccess now context.callerId context.callerName "search"
             results.length input.serviceId (searchMetadata input)]
           queries := 1 }

/-- getEventById from src/services/events.ts: fetch by identity, then
post-check authorization; an unauthorized record yields the same null as
an absent one, with an internal denial audit entry. -/
def getEventById (db : List EventRow) (eventId : String)
    (context : McpCallerContext) (now : Nat) : OpOut (Option SearchResult) :=
  match db.find? (fun e => e.id == eventId) with
  | none =>
    { result := none
      audits := [auditEventAccess now context.callerId context.callerName "get_details" 0 none
        [("eventId", eventId), ("reason", "not_found")]]
      queries := 1 }
  | some evt =>
    if passesFilter (getAuthorizedServiceFilter context) evt.serviceId then
      { result := some (toResult evt)
        audits := [auditEventAccess now context.callerId context.callerName "get_details" 1
          (some evt.serviceId)
          [("eventId", eventId), ("eventType", evt.eventType), ("severity", evt.severity)]]
        queries := 1 }
    else
      { result := none
        audits := [auditEventAccess now context.callerId context.callerName "get_details" 0
          (some evt.serviceId) [("eventId", eventId), ("reason", "unauthorized")]]
        queries := 1 }

/-- getServiceTimeline from src/services/events.ts: check authorization
before touching storage; on denial return the empty list, audit the
denial and issue no read; otherwise fetch the rows of the service in the date
range, newest first, capped at the limit. -/
def getServiceTimeline (db : List EventRow) (serviceId : String)
    (startDate endDate : Option Nat) (limit : Nat)
    (context : McpCallerContext) (now : Nat) : OpOut (List SearchResult) :=
  if passesFilter (getAuthorizedServiceFilter context) serviceId then
    let rows := db.filter (fun e => (e.serviceId == serviceId) &&
      (match startDate with | some d => decide (d ≤ e.occurredAt) | none => true) &&
      (match endDate with | some d => decide (e.occurredAt ≤ d) | none => true))
    let results := ((sortLe byRecencyDesc rows).take limit).map toResult
    { result := results
      audits := [auditEventAccess now context.callerId context.callerName "get_timeline"
        results.length (some serviceId)
        [("startDate", match startDate with | some d => toIso d | none => ""),
         ("endDate", match endDate with | some d => toIso d | none => ""),
         ("limit", toString limit)]]
      queries := 1 }
  else
    { result := []
      audits := [auditEventAccess now context.callerId context.callerName "get_timeline" 0
        (some serviceId) [("reason", "unauthorized")]]
      queries := 0 }

/-- GetImpactSummaryInput from src/types/index.ts. -/
structure GetImpactSummaryInput where
  serviceId : String
  startDate : Option Nat := none
  endDate : Option Nat := none
  maxEvents : Nat := 20
deriving DecidableEq

/-- SEVERITY_PRIORITY from src/services/impact-summary.ts. -/
def sevPriority (s : String) : Nat :=
  if s == "critical" then 4
  else if s == "error" then 3
  else if s == "warning" then 2
  else if s == "info" then 1
  else 0

/-- The prioritization comparator of generateImpactSummary: severity
first, then recency. -/
def byImpactPriority (a b : SearchResult) : Bool :=
  decide (sevPriority b.severity < sevPriority a.severity) ||
  (decide (sevPriority a.severity = sevPriority b.severity) &&
    decide (b.occurredAt ≤ a.occurredAt))

/-- generateImpactSummary from src/services/impact-summary.ts: fetch
the timeline (authorization enforced there), then either report no
events or summarize the prioritized list via the LLM collaborator; in
both branches it emits its own audit entry on top of the one emitted by
the nested getServiceTimeline call. -/
def generateImpactSummary (db : List EventRow)
    (summarize : String → List SearchResult → String)
    (input : GetImpactSummaryInput) (context : McpCallerContext) (now : Nat) :
    OpOut String :=
  let tl := getServiceTimeline db input.serviceId input.startDate input.endDate
    input.maxEvents context now
  if tl.result.isEmpty then
    { result := "No significant events found for service \"" ++ input.serviceId ++
        "\" in the specified time range."
      audits := tl.audits ++ [auditEventAccess now context.callerId context.callerName
        "get_impact_summary" 0 (some input.serviceId) [("reason", "no_events")]]
      queries := tl.queries }
  else
    { result := summarize input.serviceId (sortLe byImpactPriority tl.result)
      audits := tl.audits ++ [auditEventAccess now context.callerId context.callerName
        "get_impact_summary" tl.result.length (some input.serviceId)
        [("startDate", match input.startDate with | some d => toIso d | none => ""),
         ("endDate", match input.endDate with | some d => toIso d | none => ""),
         ("eventCount", toString tl.result.length)]]
      queries := tl.queries }

/-! Credential resolution, translated from src/mcp/auth.ts.  The
SHA-256 digest is an external collaborator, passed as the hash
parameter; the credential store is the list of apiTokens rows. -/

/-- One row of the apiTokens table (src/db/schema.ts). -/
structure ApiTokenRecord where
  id : String
  tokenHash : String
  name : String
  authorizedServices : List String
  createdBy : String
  expiresAt : Option Nat
  lastUsedAt : Option Nat
deriving DecidableEq

/-- Outcome of resolveCallerContext: the produced context, the audit
entries emitted, and the id of the token whose lastUsedAt is updated by
the fire-and-forget bookkeeping write (none when no update is issued). -/
structure ResolveOut where
  context : McpCallerContext
  audits : List AuditLogEntry
  lastUsedUpdate : Option String := none
deriving DecidableEq

/-- The success branch of resolveCallerContext. -/
def resolveValid (tokenRecord : ApiTokenRecord) (now : Nat) : ResolveOut :=
  { context :=
      { callerId := tokenRecord.id
        callerName := some tokenRecord.name
        authorizedServices := tokenRecord.authorizedServices
        callerType := "token" }
    audits := [auditAuthSuccess now tokenRecord.id (some tokenRecord.name)
      [("authorizedServices", String.intercalate "," tokenRecord.authorizedServices)]]
    lastUsedUpdate := some tokenRecord.id }

/-- resolveCallerContext from src/mcp/auth.ts.  metadataAuthToken is the
authToken field of the call metadata, envAuthToken the process-wide
PEI_AUTH_TOKEN fallback; the JavaScript or-else picks the first truthy
of the two.  Every branch returns a context (the function never
raises). -/
def resolveCallerContext (hash : String → String) (store : List ApiTokenRecord)
    (metadataAuthToken : Option String) (envAuthToken : Option String)
    (now : Nat) : ResolveOut :=
  match orElseTruthy metadataAuthToken envAuthToken with
  | none =>
    { context := { callerId := "anonymous", authorizedServices := [], callerType := "token" }
      audits := [auditAuthFailure now "anonymous" "missing_token" []] }
  | some tok =>
    let tokenHash := hash tok
    match store.find? (fun r => r.tokenHash == tokenHash) with
    | none =>
      { context := { callerId := "invalid", authorizedServices := [], callerType := "token" }
        audits := [auditAuthFailure now "unknown" "invalid_token" [("tokenHash", tokenHash)]] }
    | some tokenRecord =>
      match tokenRecord.expiresAt with
      | some t =>
        if t < now then
          { context := { callerId := tokenRecord.id, authorizedServices := [], callerType := "token" }
            audits := [auditAuthFailure now tokenRecord.id "expired_token"
              [("name", tokenRecord.name), ("expiresAt", toIso t)]] }
        else resolveValid tokenRecord now
      | none => resolveValid tokenRecord now

/-! Case-insensitive literal substring containment, the semantics the
escaped ILIKE pattern is proved to implement. -/

/-- Case-insensitive prefix test on character lists. -/
def isPrefixCI : List Char → List Char → Bool
  | [], _ => true
  | _ :: _, [] => false
  | q :: qs, t :: ts => (lcChar t == lcChar q) && isPrefixCI qs ts

/-- Case-insensitive substring test on character lists. -/
def isInfixCI : List Char → List Char → Bool
  | q, [] => isPrefixCI q []
  | q, t :: ts => isPrefixCI q (t :: ts) || isInfixCI q ts

/-- A string contains another as a literal substring, up to the ASCII
case folding of the ILIKE dialect. -/
def containsCI (q t : String) : Bool := isInfixCI q.data t.data

/-- Image of one character under escapeLikePattern. -/
def escChar (c : Char) : List Char :=
  if c == '\\' then ['\\', '\\']
  else if c == '%' then ['\\', '%']
  else if c == '_' then ['\\', '_']
  else [c]

/-- Pointwise image of a character list under escapeLikePattern. -/
def escList : List Char → List Char
  | [] => []
  | c :: cs => escChar c ++ escList cs

theorem replaceAllC_append (c : Char) (r a b : List Char) :
    replaceAllC c r (a ++ b) = replaceAllC c r a ++ replaceAllC c r b := by
  induction a with
  | nil => rfl
  | cons x xs ih => simp [replaceAllC, ih]

theorem escapeLikePattern_eq_escList (s : List Char) :
    replaceAllC '_' ['\\', '_']
      (replaceAllC '%' ['\\', '%']
        (replaceAllC '\\' ['\\', '\\'] s)) = escList s := by
  induction s with
  | nil => rfl
  | cons x xs ih =>
    simp only [replaceAllC, replaceAllC_append, ih, escList]
    congr 1
    by_cases h1 : x = '\\'
    · subst h1; rfl
    · by_cases h2 : x = '%'
      · subst h2; rfl
      · by_cases h3 : x = '_'
        · subst h3; rfl
        · simp [replaceAllC, escChar, h1, h2, h3]

theorem lexLike_escChar (c : Char) (rest : List Char) :
    lexLikeAux false (escChar c ++ rest) =
      (lexLikeAux false rest).map (fun l => LikeTok.lit c :: l) := by
  by_cases h1 : c = '\\'
  · subst h1; rfl
  · by_cases h2 : c = '%'
    · subst h2; rfl
    · by_cases h3 : c = '_'
      · subst h3; rfl
      · have he : escChar c = [c] := by simp [escChar, h1, h2, h3]
        rw [he, List.singleton_append]
        simp [lexLikeAux, h1, h2, h3]

theorem lexLike_escList (q rest : List Char) :
    lexLikeAux false (escList q ++ rest) =
      (lexLikeAux false rest).map (fun l => q.map LikeTok.lit ++ l) := by
  induction q with
  | nil =>
    simp only [escList, List.nil_append, List.map_nil]
    cases h : lexLikeAux false rest <;> simp [h]
  | cons c cs ih =>
    simp only [escList, List.append_assoc]
    rw [lexLike_escChar, ih]
    cases h : lexLikeAux false rest <;> simp [h]

theorem nil_mem_suffixesOf (t : List Char) : [] ∈ suffixesOf t := by
  induction t with
  | nil => simp [suffixesOf]
  | cons c ts ih => simp [suffixesOf, ih]

theorem tokMatch_any_nil (t : List Char) : tokMatch [LikeTok.any] t = true := by
  have h : tokMatch ([] : List LikeTok) [] = true := rfl
  rw [show tokMatch [LikeTok.any] t =
    (suffixesOf t).any (fun s => tokMatch [] s) from rfl]
  exact List.any_eq_true.2 ⟨[], nil_mem_suffixesOf t, h⟩

theorem tokMatch_lits_any (q : List Char) :
    ∀ t, tokMatch (q.map LikeTok.lit ++ [LikeTok.any]) t = isPrefixCI q t := by
  induction q with
  | nil => intro t; simp [isPrefixCI, tokMatch_any_nil]
  | cons c cs ih =>
    intro t
    cases t with
    | nil => rfl
    | cons c2 ts =>
      show ((lcChar c2 == lcChar c) && tokMatch (cs.map LikeTok.lit ++ [LikeTok.any]) ts) = _
      rw [ih]
      rfl

theorem tokMatch_any_lits_any (q : List Char) (t : List Char) :
    tokMatch (LikeTok.any :: (q.map LikeTok.lit ++ [LikeTok.any])) t = isInfixCI q t := by
  rw [show tokMatch (LikeTok.any :: (q.map LikeTok.lit ++ [LikeTok.any])) t =
    (suffixesOf t).any (fun s => tokMatch (q.map LikeTok.lit ++ [LikeTok.any]) s) from rfl]
  induction t with
  | nil => simp [suffixesOf, tokMatch_lits_any, isInfixCI]
  | cons c ts ih =>
    show (tokMatch (q.map LikeTok.lit ++ [LikeTok.any]) (c :: ts) ||
      (suffixesOf ts).any (fun s => tokMatch (q.map LikeTok.lit ++ [LikeTok.any]) s)) = _
    rw [ih, tokMatch_lits_any]
    rfl

/-- The full escaped pattern percent-escaped(q)-percent lexes
successfully and matches a text exactly when the text contains q as a
case-insensitive literal substring. -/
theorem lexLike_likePattern (q : String) :
    lexLike ("%" ++ escapeLikePattern q ++ "%").data =
      some (LikeTok.any :: (q.data.map LikeTok.lit ++ [LikeTok.any])) := by
  have hdata : ("%" ++ escapeLikePattern q ++ "%").data =
      '%' :: (escList q.data ++ ['%']) := by
    rw [String.data_append, String.data_append]
    show '%' :: ((escapeLikePattern q).data ++ ['%']) = _
    unfold escapeLikePattern
    rw [escapeLikePattern_eq_escList]
  rw [hdata]
  show lexLikeAux false ('%' :: (escList q.data ++ ['%'])) = _
  have h1 : lexLikeAux false ('%' :: (escList q.data ++ ['%'])) =
      (lexLikeAux false (escList q.data ++ ['%'])).map (fun l => LikeTok.any :: l) := rfl
  rw [h1, lexLike_escList]
  rfl

/-! Shared membership facts about the ORDER BY / LIMIT query
pipeline. -/

theorem mem_insertLe {α : Type} (le : α → α → Bool) (x a : α) (l : List α) :
    a ∈ insertLe le x l ↔ a = x ∨ a ∈ l := by
  induction l with
  | nil => simp [insertLe]
  | cons b bs ih =>
    by_cases h : le x b
    · simp [insertLe, h, ih]
    · simp [insertLe, h, ih]
      tauto

theorem mem_sortLe {α : Type} (le : α → α → Bool) (a : α) (l : List α) :
    a ∈ sortLe le l ↔ a ∈ l := by
  induction l with
  | nil => simp [sortLe]
  | cons b bs ih => simp [sortLe, mem_insertLe, ih]

theorem mem_query_pipeline {db : List EventRow} {p : EventRow → Bool}
    {le : EventRow → EventRow → Bool} {lim : Nat} {f : EventRow → SearchResult}
    {r : SearchResult}
    (hr : r ∈ ((sortLe le (db.filter p)).take lim).map f) :
    ∃ e, e ∈ db ∧ p e = true ∧ r = f e := by
  rcases List.mem_map.1 hr with ⟨e, he, hfe⟩
  have h1 : e ∈ sortLe le (db.filter p) := List.mem_of_mem_take he
  have h2 : e ∈ db.filter p := (mem_sortLe le e _).1 h1
  rcases List.mem_filter.1 h2 with ⟨hdb, hp⟩
  exact ⟨e, hdb, hp, hfe.symm⟩

/-- Evaluating the filter returned by getAuthorizedServiceFilter on a
serviceId agrees with isAuthorizedForService. -/
theorem passesFilter_eval (c : McpCallerContext) (s : String) :
    passesFilter (getAuthorizedServiceFilter c) s = isAuthorizedForService c s := by
  unfold passesFilter getAuthorizedServiceFilter isAuthorizedForService
  by_cases h : "*" ∈ c.authorizedServices <;> simp [h]

/-- Modelled from the wording of the spec of the Keyword Search contract
(refinement target): a row matches when its title or non-null
description contains the query as a literal (case-insensitive)
substring. -/
def literalRowMatch (q : String) (e : EventRow) : Bool :=
  containsCI q e.title ||
  (match e.description with | some d => containsCI q d | none => false)

/-- Modelled from the wording of the spec of the Keyword Search contract
(refinement target): same entitlement and optional filters, ordering
and limit as keywordSearch, with plain literal substring matching in
place of the pattern dialect. -/
def keywordSearchLiteral (db : List EventRow) (input : SearchEventsInput)
    (context : McpCallerContext) : List SearchResult :=
  let flt := getAuthorizedServiceFilter context
  ((sortLe byRecencyDesc
    (db.filter (fun e => rowBaseOk input flt e && literalRowMatch input.query e))).take
      input.limit).map toResult

/-- keywordSearch never fails and returns exactly the literal-substring
search results. -/
theorem keywordSearch_eq_literal (db : List EventRow) (input : SearchEventsInput)
    (context : McpCallerContext) :
    keywordSearch db input context = some (keywordSearchLiteral db input context) := by
  have hfun : (fun e => rowBaseOk input (getAuthorizedServiceFilter context) e &&
      rowKeywordOk (LikeTok.any :: (input.query.data.map LikeTok.lit ++ [LikeTok.any])) e) =
      (fun e => rowBaseOk input (getAuthorizedServiceFilter context) e &&
        literalRowMatch input.query e) := by
    funext e
    unfold rowKeywordOk literalRowMatch containsCI
    cases e.description <;> simp [tokMatch_any_lits_any]
  unfold keywordSearch keywordSearchLiteral
  rw [lexLike_likePattern]
  simp only [hfun]

/-- searchEvents in semantic mode. -/
theorem searchEvents_semantic_eq (db : List EventRow) (emb : String → List Int)
    (dist : List Int → List Int → Int) (input : SearchEventsInput)
    (context : McpCallerContext) (now : Nat)
    (hm : input.useSemanticSearch = true) :
    searchEvents db emb dist input context now =
      some { result := semanticSearch db emb dist input context
             audits := [auditEventAccess now context.callerId context.callerName "search"
               (semanticSearch db emb dist input context).length input.serviceId
               (searchMetadata input)]
             queries := 1 } := by
  unfold searchEvents
  rw [hm]
  rfl

/-- searchEvents in keyword mode. -/
theorem searchEvents_keyword_eq (db : List EventRow) (emb : String → List Int)
    (dist : List Int → List Int → Int) (input : SearchEventsInput)
    (context : McpCallerContext) (now : Nat)
    (hm : input.useSemanticSearch = false) :
    searchEvents db emb dist input context now =
      some { result := keywordSearchLiteral db input context
             audits := [auditEventAccess now context.callerId context.callerName "search"
               (keywordSearchLiteral db input context).length input.serviceId
               (searchMetadata input)]
             queries := 1 } := by
  unfold searchEvents
  rw [hm, keywordSearch_eq_literal]
  rfl

/-- An entitlement filter that is not the star sentinel is the literal
entitlement list. -/
theorem getAuthorizedServiceFilter_of_not_star (c : McpCallerContext)
    (hstar : "*" ∉ c.authorizedServices) :
    getAuthorizedServiceFilter c = ServiceFilter.ids c.authorizedServices := by
  unfold getAuthorizedServiceFilter
  simp [hstar]

/-- The first conjunct of the shared WHERE clause is the entitlement
filter. -/
theorem passes_of_rowBaseOk {input : SearchEventsInput} {flt : ServiceFilter}
    {e : EventRow} (h : rowBaseOk input flt e = true) :
    passesFilter flt e.serviceId = true := by
  simp only [rowBaseOk, Bool.and_eq_true] at h
  tauto

end PEI

namespace PEI

/-- C9: the two entitlement-evaluator operations cohere: the row
predicate induced by getAuthorizedServiceFilter admits a serviceId
exactly when isAuthorizedForService does, and isAuthorizedForService is
true iff the filter is the star sentinel or the serviceId is a member of
the returned list.  Both are plain functions of the context, hence pure
and deterministic. -/
theorem entitlement_evaluator_coherent :
    ∀ (c : McpCallerContext) (t : String),
      passesFilter (getAuthorizedServiceFilter c) t = isAuthorizedForService c t ∧
      (isAuthorizedForService c t = true ↔
        getAuthorizedServiceFilter c = ServiceFilter.star ∨
        ∃ l, getAuthorizedServiceFilter c = ServiceFilter.ids l ∧ t ∈ l) := by
  intro c t
  unfold passesFilter getAuthorizedServiceFilter isAuthorizedForService
  by_cases h : "*" ∈ c.authorizedServices <;> simp [h]

/-- C7: when the call metadata carries no authToken and no process-wide
fallback credential is configured, resolveCallerContext (a total
function: it never raises) returns the anonymous zero-entitlement
context with callerType token and emits exactly one audit entry, an
authentication failure with reason missing_token. -/
theorem resolveCallerContext_missing_token (hash : String → String)
    (store : List ApiTokenRecord) (mtok env : Option String) (now : Nat)
    (hm : mtok = none) (he : env = none) :
    (resolveCallerContext hash store mtok env now).context =
      { callerId := "anonymous", authorizedServices := [], callerName := none,
        callerType := "token" } ∧
    (resolveCallerContext hash store mtok env now).audits =
      [auditAuthFailure now "anonymous" "missing_token" []] ∧
    (auditAuthFailure now "anonymous" "missing_token" []).action = "authentication_failure" ∧
    (auditAuthFailure now "anonymous" "missing_token" []).success = false ∧
    (auditAuthFailure now "anonymous" "missing_token" []).message =
      some "Authentication failed: missing_token" := by
  subst hm he
  refine ⟨?_, ?_, rfl, rfl, rfl⟩ <;> rfl

theorem resolveCallerContext_missing_token_witness :
    (resolveCallerContext (fun s => s) [] none none 1700000000000).context =
      { callerId := "anonymous", authorizedServices := [], callerName := none,
        callerType := "token" } ∧
    (resolveCallerContext (fun s => s) [] none none 1700000000000).audits =
      [auditAuthFailure 1700000000000 "anonymous" "missing_token" []] ∧
    (auditAuthFailure 1700000000000 "anonymous" "missing_token" []).action =
      "authentication_failure" ∧
    (auditAuthFailure 1700000000000 "anonymous" "missing_token" []).success = false ∧
    (auditAuthFailure 1700000000000 "anonymous" "missing_token" []).message =
      some "Authentication failed: missing_token" :=
  resolveCallerContext_missing_token (fun s => s) [] none none 1700000000000 rfl rfl

/-- C8: when the presented credential resolves (via the digest lookup)
to a stored record whose expiresAt is strictly in the past at resolution
time, resolveCallerContext preserves the identity of the record as callerId
but zeroes the entitlement set, emits exactly one audit entry — an
authentication failure with reason expired_token — and issues no
bookkeeping update; the entitlement set of the record is never granted. -/
theorem resolveCallerContext_expired (hash : String → String)
    (store : List ApiTokenRecord) (mtok env : Option String) (now : Nat)
    (tok : String) (tokenRecord : ApiTokenRecord) (t : Nat)
    (htok : orElseTruthy mtok env = some tok)
    (hfind : store.find? (fun r => r.tokenHash == hash tok) = some tokenRecord)
    (hexp : tokenRecord.expiresAt = some t) (hlt : t < now) :
    (resolveCallerContext hash store mtok env now).context.callerId = tokenRecord.id ∧
    (resolveCallerContext hash store mtok env now).context.authorizedServices = [] ∧
    (resolveCallerContext hash store mtok env now).audits =
      [auditAuthFailure now tokenRecord.id "expired_token"
        [("name", tokenRecord.name), ("expiresAt", toIso t)]] ∧
    (auditAuthFailure now tokenRecord.id "expired_token"
        [("name", tokenRecord.name), ("expiresAt", toIso t)]).action =
      "authentication_failure" ∧
    (auditAuthFailure now tokenRecord.id "expired_token"
        [("name", tokenRecord.name), ("expiresAt", toIso t)]).message =
      some "Authentication failed: expired_token" ∧
    (resolveCallerContext hash store mtok env now).lastUsedUpdate = none := by
  unfold resolveCallerContext
  rw [htok]
  simp [hfind, hexp, hlt]
  exact ⟨rfl, rfl⟩

theorem resolveCallerContext_expired_witness :
    (resolveCallerContext (fun s => s ++ "-digest")
        [{ id := "tok-1", tokenHash := "secret-digest", name := "uni token",
           authorizedServices := ["svc-a", "svc-b"], createdBy := "admin",
           expiresAt := some 5, lastUsedAt := none }]
        (some "secret") none 10).context.callerId = "tok-1" ∧
    (resolveCallerContext (fun s => s ++ "-digest")
        [{ id := "tok-1", tokenHash := "secret-digest", name := "uni token",
           authorizedServices := ["svc-a", "svc-b"], createdBy := "admin",
           expiresAt := some 5, lastUsedAt := none }]
        (some "secret") none 10).context.authorizedServices = [] ∧
    (resolveCallerContext (fun s => s ++ "-digest")
        [{ id := "tok-1", tokenHash := "secret-digest", name := "uni token",
           authorizedServices := ["svc-a", "svc-b"], createdBy := "admin",
           expiresAt := some 5, lastUsedAt := none }]
        (some "secret") none 10).audits =
      [auditAuthFailure 10 "tok-1" "expired_token"
        [("name", "uni token"), ("expiresAt", toIso 5)]] ∧
    (auditAuthFailure 10 "tok-1" "expired_token"
        [("name", "uni token"), ("expiresAt", toIso 5)]).action =
      "authentication_failure" ∧
    (auditAuthFailure 10 "tok-1" "expired_token"
        [("name", "uni token"), ("expiresAt", toIso 5)]).message =
      some "Authentication failed: expired_token" ∧
    (resolveCallerContext (fun s => s ++ "-digest")
        [{ id := "tok-1", tokenHash := "secret-digest", name := "uni token",
           authorizedServices := ["svc-a", "svc-b"], createdBy := "admin",
           expiresAt := some 5, lastUsedAt := none }]
        (some "secret") none 10).lastUsedUpdate = none :=
  resolveCallerContext_expired (fun s => s ++ "-digest")
    [{ id := "tok-1", tokenHash := "secret-digest", name := "uni token",
       authorizedServices := ["svc-a", "svc-b"], createdBy := "admin",
       expiresAt := some 5, lastUsedAt := none }]
    (some "secret") none 10 "secret"
    { id := "tok-1", tokenHash := "secret-digest", name := "uni token",
      authorizedServices := ["svc-a", "svc-b"], createdBy := "admin",
      expiresAt := some 5, lastUsedAt := none }
    5 rfl (by rfl) rfl (by norm_num)

/-- C10: when the presented credential matches no stored record, the
single emitted audit entry carries callerId unknown with metadata
holding exactly the digest of the credential (never the raw credential),
while the returned context carries the distinct sentinel callerId
invalid with an empty entitlement set. -/
theorem resolveCallerContext_invalid_token (hash : String → String)
    (store : List ApiTokenRecord) (mtok env : Option String) (now : Nat)
    (tok : String)
    (htok : orElseTruthy mtok env = some tok)
    (hfind : store.find? (fun r => r.tokenHash == hash tok) = none) :
    (resolveCallerContext hash store mtok env now).context.callerId = "invalid" ∧
    (resolveCallerContext hash store mtok env now).context.authorizedServices = [] ∧
    (resolveCallerContext hash store mtok env now).audits =
      [auditAuthFailure now "unknown" "invalid_token" [("tokenHash", hash tok)]] ∧
    (auditAuthFailure now "unknown" "invalid_token" [("tokenHash", hash tok)]).callerId =
      "unknown" ∧
    (auditAuthFailure now "unknown" "invalid_token" [("tokenHash", hash tok)]).metadata =
      [("tokenHash", hash tok)] ∧
    (auditAuthFailure now "unknown" "invalid_token" [("tokenHash", hash tok)]).action =
      "authentication_failure" := by
  unfold resolveCallerContext
  rw [htok]
  simp [hfind]
  exact ⟨rfl, rfl, rfl⟩

/-- C1: for every Caller Context without the star sentinel, every
record returned through searchEvents — in semantic mode (semanticSearch,
reached with useSemanticSearch = true) just as in keyword mode — has a
serviceId that is a member of the authorizedServices of the context: the
Similarity Search path applies the same entitlement inclusion filter as
Keyword Search, so both modes exclude every event of a tenant outside
the entitlement set. -/
theorem similarity_search_entitlement (db : List EventRow) (emb : String → List Int)
    (dist : List Int → List Int → Int) (input : SearchEventsInput)
    (context : McpCallerContext) (now : Nat) (out : OpOut (List SearchResult))
    (r : SearchResult)
    (hstar : "*" ∉ context.authorizedServices)
    (hout : searchEvents db emb dist input context now = some out)
    (hr : r ∈ out.result) :
    r.serviceId ∈ context.authorizedServices := by
  have hflt := getAuthorizedServiceFilter_of_not_star context hstar
  by_cases hm : input.useSemanticSearch
  · rw [searchEvents_semantic_eq db emb dist input context now hm] at hout
    injection hout with hout
    subst hout
    simp only [semanticSearch] at hr
    obtain ⟨e, _, hp, rfl⟩ := mem_query_pipeline hr
    rw [Bool.and_eq_true] at hp
    have hpass : passesFilter (getAuthorizedServiceFilter context) e.serviceId = true :=
      passes_of_rowBaseOk hp.1
    rw [hflt] at hpass
    simp only [passesFilter] at hpass
    simp only [toResult]
    simpa using hpass
  · rw [searchEvents_keyword_eq db emb dist input context now (by simpa using hm)] at hout
    injection hout with hout
    subst hout
    simp only [keywordSearchLiteral] at hr
    obtain ⟨e, _, hp, rfl⟩ := mem_query_pipeline hr
    rw [Bool.and_eq_true] at hp
    have hpass : passesFilter (getAuthorizedServiceFilter context) e.serviceId = true :=
      passes_of_rowBaseOk hp.1
    rw [hflt] at hpass
    simp only [passesFilter] at hpass
    simp only [toResult]
    simpa using hpass

theorem similarity_search_entitlement_witness :
    ({ id := "e1", serviceId := "svc-a", eventType := "incident", severity := "error",
       title := "db outage", description := none, occurredAt := 5,
       score := some 1 } : SearchResult).serviceId ∈
      ({ callerId := "caller", authorizedServices := ["svc-a"] } :
        McpCallerContext).authorizedServices :=
  similarity_search_entitlement
    [{ id := "e1", serviceId := "svc-a", eventType := "incident", severity := "error",
       title := "db outage", description := none, occurredAt := 5, embedding := some [1] }]
    (fun _ => [1]) (fun _ _ => 0)
    { query := "outage" }
    { callerId := "caller", authorizedServices := ["svc-a"] }
    0
    { result :=
        [{ id := "e1", serviceId := "svc-a", eventType := "incident",
           severity := "error", title := "db outage", description := none,
           occurredAt := 5, score := some 1 }]
      audits := [auditEventAccess 0 "caller" none "search" 1 none
        (searchMetadata { query := "outage" })]
      queries := 1 }
    { id := "e1", serviceId := "svc-a", eventType := "incident", severity := "error",
      title := "db outage", description := none, occurredAt := 5, score := some 1 }
    (by decide) (by decide) (by decide)

/-- C2: a Caller Context with an empty entitlement set is denied by the
evaluator for every tenant and receives zero records from every query
gate operation — an empty list from searchEvents in either mode and from
getServiceTimeline, null from getEventById — and never an error
(searchEvents still returns a well-formed outcome). -/
theorem empty_entitlement_zero_records (context : McpCallerContext)
    (h : context.authorizedServices = [])
    (db : List EventRow) (emb : String → List Int) (dist : List Int → List Int → Int)
    (input : SearchEventsInput) (eventId serviceId tenant : String)
    (sd ed : Option Nat) (lim now : Nat) :
    isAuthorizedForService context tenant = false ∧
    (searchEvents db emb dist input context now).map OpOut.result = some [] ∧
    (getEventById db eventId context now).result = none ∧
    (getServiceTimeline db serviceId sd ed lim context now).result = [] := by
  have hauth : ∀ s, isAuthorizedForService context s = false := by
    intro s
    simp [isAuthorizedForService, h]
  have hpass : ∀ s, passesFilter (getAuthorizedServiceFilter context) s = false := by
    intro s
    rw [passesFilter_eval]
    exact hauth s
  refine ⟨hauth tenant, ?_, ?_, ?_⟩
  · by_cases hm : input.useSemanticSearch
    · rw [searchEvents_semantic_eq db emb dist input context now hm]
      have hfil : db.filter (fun e =>
          rowBaseOk input (getAuthorizedServiceFilter context) e && e.embedding.isSome) = [] := by
        rw [List.filter_eq_nil_iff]
        intro e _
        simp [rowBaseOk, hpass]
      have hsem : semanticSearch db emb dist input context = [] := by
        simp only [semanticSearch]
        rw [hfil]
        simp [sortLe]
      simp [hsem]
    · rw [searchEvents_keyword_eq db emb dist input context now (by simpa using hm)]
      have hfil : db.filter (fun e =>
          rowBaseOk input (getAuthorizedServiceFilter context) e &&
            literalRowMatch input.query e) = [] := by
        rw [List.filter_eq_nil_iff]
        intro e _
        simp [rowBaseOk, hpass]
      have hkw : keywordSearchLiteral db input context = [] := by
        simp only [keywordSearchLiteral]
        rw [hfil]
        simp [sortLe]
      simp [hkw]
  · cases hfind : db.find? (fun e => e.id == eventId) with
    | none => simp [getEventById, hfind]
    | some evt => simp [getEventById, hfind, hpass]
  · simp [getServiceTimeline, hpass]

theorem empty_entitlement_zero_records_witness :
    (isAuthorizedForService { callerId := "noone", authorizedServices := [] } "svc-a" = false ∧
      (searchEvents
        [{ id := "e1", serviceId := "svc-a", eventType := "incident", severity := "error",
           title := "db outage", description := none, occurredAt := 5, embedding := some [1] }]
        (fun _ => [1]) (fun _ _ => 0) { query := "outage" }
        { callerId := "noone", authorizedServices := [] } 0).map OpOut.result = some [] ∧
      (getEventById
        [{ id := "e1", serviceId := "svc-a", eventType := "incident", severity := "error",
           title := "db outage", description := none, occurredAt := 5, embedding := some [1] }]
        "e1" { callerId := "noone", authorizedServices := [] } 0).result = none ∧
      (getServiceTimeline
        [{ id := "e1", serviceId := "svc-a", eventType := "incident", severity := "error",
           title := "db outage", description := none, occurredAt := 5, embedding := some [1] }]
        "svc-a" none none 10 { callerId := "noone", authorizedServices := [] } 0).result = []) ∧
    (isAuthorizedForService { callerId := "noone", authorizedServices := [] } "svc-a" = false ∧
      (searchEvents
        [{ id := "e1", serviceId := "svc-a", eventType := "incident", severity := "error",
           title := "db outage", description := none, occurredAt := 5, embedding := some [1] }]
        (fun _ => [1]) (fun _ _ => 0) { query := "outage", useSemanticSearch := false }
        { callerId := "noone", authorizedServices := [] } 0).map OpOut.result = some [] ∧
      (getEventById
        [{ id := "e1", serviceId := "svc-a", eventType := "incident", severity := "error",
           title := "db outage", description := none, occurredAt := 5, embedding := some [1] }]
        "e1" { callerId := "noone", authorizedServices := [] } 0).result = none ∧
      (getServiceTimeline
        [{ id := "e1", serviceId := "svc-a", eventType := "incident", severity := "error",
           title := "db outage", description := none, occurredAt := 5, embedding := some [1] }]
        "svc-a" none none 10 { callerId := "noone", authorizedServices := [] } 0).result = []) :=
  ⟨empty_entitlement_zero_records { callerId := "noone", authorizedServices := [] } rfl
      [{ id := "e1", serviceId := "svc-a", eventType := "incident", severity := "error",
         title := "db outage", description := none, occurredAt := 5, embedding := some [1] }]
      (fun _ => [1]) (fun _ _ => 0) { query := "outage" } "e1" "svc-a" "svc-a"
      none none 10 0,
    empty_entitlement_zero_records { callerId := "noone", authorizedServices := [] } rfl
      [{ id := "e1", serviceId := "svc-a", eventType := "incident", severity := "error",
         title := "db outage", description := none, occurredAt := 5, embedding := some [1] }]
      (fun _ => [1]) (fun _ _ => 0) { query := "outage", useSemanticSearch := false }
      "e1" "svc-a" "svc-a" none none 10 0⟩

/-- C3: for every query string, keywordSearch neutralizes the
pattern-special characters (percent, underscore, backslash; quoting is
handled by parameter binding, so an embedded quote is an ordinary
literal character) and never produces a malformed pattern: it always
succeeds, returning exactly the rows whose title or description contains
the query as a literal substring under the case-insensitive comparison
of the ILIKE dialect, subject to the same entitlement and optional
filters, ordering and limit. -/
theorem keyword_search_literal_semantics (db : List EventRow) (input : SearchEventsInput)
    (context : McpCallerContext) :
    keywordSearch db input context = some (keywordSearchLiteral db input context) :=
  keywordSearch_eq_literal db input context

/-- C4: getEventById yields the identical caller-visible outcome (null)
when the event is absent and when it exists but the caller is not
authorized for its serviceId; no distinct forbidden signal exists in
the result type. -/
theorem getEventById_unauthorized_eq_absent (db : List EventRow) (eventId : String)
    (context : McpCallerContext) (now : Nat)
    (hcase : db.find? (fun e => e.id == eventId) = none ∨
      ∃ evt, db.find? (fun e => e.id == eventId) = some evt ∧
        isAuthorizedForService context evt.serviceId = false) :
    (getEventById db eventId context now).result = none := by
  rcases hcase with hnone | ⟨evt, hfind, hden⟩
  · simp [getEventById, hnone]
  · have hpass : passesFilter (getAuthorizedServiceFilter context) evt.serviceId = false := by
      rw [passesFilter_eval]
      exact hden
    simp [getEventById, hfind, hpass]

theorem getEventById_unauthorized_eq_absent_witness :
    (getEventById [] "e1"
        { callerId := "caller", authorizedServices := ["svc-a"] } 0).result = none ∧
    (getEventById
        [{ id := "e1", serviceId := "svc-b", eventType := "incident", severity := "error",
           title := "db outage", description := none, occurredAt := 5, embedding := none }]
        "e1" { callerId := "caller", authorizedServices := ["svc-a"] } 0).result = none :=
  ⟨getEventById_unauthorized_eq_absent [] "e1"
      { callerId := "caller", authorizedServices := ["svc-a"] } 0 (Or.inl rfl),
    getEventById_unauthorized_eq_absent
      [{ id := "e1", serviceId := "svc-b", eventType := "incident", severity := "error",
         title := "db outage", description := none, occurredAt := 5, embedding := none }]
      "e1" { callerId := "caller", authorizedServices := ["svc-a"] } 0
      (Or.inr
        ⟨{ id := "e1", serviceId := "svc-b", eventType := "incident",
           severity := "error", title := "db outage", description := none,
           occurredAt := 5, embedding := none }, by decide, by decide⟩)⟩

/-- C6: when the caller is not authorized for the requested tenant,
getServiceTimeline returns the empty list, issues zero reads to storage
and audits the denial; only when the check passes is one storage read
issued. -/
theorem timeline_denial_no_storage_read (db : List EventRow) (serviceId : String)
    (sd ed : Option Nat) (lim : Nat) (context : McpCallerContext) (now : Nat) :
    (isAuthorizedForService context serviceId = false →
      (getServiceTimeline db serviceId sd ed lim context now).result = [] ∧
      (getServiceTimeline db serviceId sd ed lim context now).queries = 0 ∧
      (getServiceTimeline db serviceId sd ed lim context now).audits =
        [auditEventAccess now context.callerId context.callerName "get_timeline" 0
          (some serviceId) [("reason", "unauthorized")]]) ∧
    (isAuthorizedForService context serviceId = true →
      (getServiceTimeline db serviceId sd ed lim context now).queries = 1) := by
  constructor
  · intro hden
    simp [getServiceTimeline, passesFilter_eval, hden]
  · intro hok
    simp [getServiceTimeline, passesFilter_eval, hok]

theorem timeline_denial_no_storage_read_witness :
    ((getServiceTimeline [] "svc-b" none none 10
        { callerId := "caller", authorizedServices := ["svc-a"] } 0).result = [] ∧
      (getServiceTimeline [] "svc-b" none none 10
        { callerId := "caller", authorizedServices := ["svc-a"] } 0).queries = 0 ∧
      (getServiceTimeline [] "svc-b" none none 10
        { callerId := "caller", authorizedServices := ["svc-a"] } 0).audits =
        [auditEventAccess 0 "caller" none "get_timeline" 0 (some "svc-b")
          [("reason", "unauthorized")]]) ∧
    (getServiceTimeline [] "svc-a" none none 10
        { callerId := "caller", authorizedServices := ["svc-a"] } 0).queries = 1 :=
  ⟨(timeline_denial_no_storage_read [] "svc-b" none none 10
      { callerId := "caller", authorizedServices := ["svc-a"] } 0).1 (by decide),
    (timeline_denial_no_storage_read [] "svc-a" none none 10
      { callerId := "caller", authorizedServices := ["svc-a"] } 0).2 (by decide)⟩

/-- Every event-access audit entry has success identically true and an
ISO-8601 timestamp. -/
theorem auditEventAccess_wf (now : Nat) (cid : String) (cn : Option String)
    (act : String) (cnt : Nat) (sid : Option String) (md : List (String × String)) :
    ((auditEventAccess now cid cn act cnt sid md).success &&
      isIso8601 (auditEventAccess now cid cn act cnt sid md).timestamp) = true := by
  simp [auditEventAccess, isIso8601_toIso]

/-- getServiceTimeline emits exactly one entry, well-formed, in both
branches. -/
theorem timeline_audits_shape (db : List EventRow) (serviceId : String)
    (sd ed : Option Nat) (lim : Nat) (context : McpCallerContext) (now : Nat) :
    (getServiceTimeline db serviceId sd ed lim context now).audits.length = 1 ∧
    (getServiceTimeline db serviceId sd ed lim context now).audits.all
      (fun a => a.success && isIso8601 a.timestamp) = true := by
  by_cases hc : passesFilter (getAuthorizedServiceFilter context) serviceId <;>
    simp [getServiceTimeline, hc, auditEventAccess, isIso8601_toIso]

/-- C5 (amended): each call to searchEvents, getEventById and
getServiceTimeline emits exactly one Audit Entry, while
generateImpactSummary emits exactly two (one from the nested
getServiceTimeline read plus its own); every such entry carries
success identically true — auditEventAccess hardcodes success — with
the returned record count carried in the message and metadata rather
than reflected in success; and the timestamp of every entry is a parseable
ISO-8601 string. -/
theorem query_gate_audit_entries (db : List EventRow) (emb : String → List Int)
    (dist : List Int → List Int → Int) (input : SearchEventsInput)
    (context : McpCallerContext) (eventId serviceId : String)
    (sd ed : Option Nat) (lim : Nat)
    (summarize : String → List SearchResult → String)
    (sinput : GetImpactSummaryInput) (now : Nat) :
    (searchEvents db emb dist input context now).map
        (fun o => (o.audits.length,
          o.audits.all (fun a => a.success && isIso8601 a.timestamp))) = some (1, true) ∧
    (getEventById db eventId context now).audits.length = 1 ∧
    (getEventById db eventId context now).audits.all
      (fun a => a.success && isIso8601 a.timestamp) = true ∧
    (getServiceTimeline db serviceId sd ed lim context now).audits.length = 1 ∧
    (getServiceTimeline db serviceId sd ed lim context now).audits.all
      (fun a => a.success && isIso8601 a.timestamp) = true ∧
    (generateImpactSummary db summarize sinput context now).audits.length = 2 ∧
    (generateImpactSummary db summarize sinput context now).audits.all
      (fun a => a.success && isIso8601 a.timestamp) = true := by
  refine ⟨?_, ?_, ?_, (timeline_audits_shape db serviceId sd ed lim context now).1,
    (timeline_audits_shape db serviceId sd ed lim context now).2, ?_, ?_⟩
  · by_cases hm : input.useSemanticSearch
    · rw [searchEvents_semantic_eq db emb dist input context now hm]
      simp [auditEventAccess, isIso8601_toIso]
    · rw [searchEvents_keyword_eq db emb dist input context now (by simpa using hm)]
      simp [auditEventAccess, isIso8601_toIso]
  · cases hfind : db.find? (fun e => e.id == eventId) with
    | none => simp [getEventById, hfind]
    | some evt =>
      by_cases hp : passesFilter (getAuthorizedServiceFilter context) evt.serviceId <;>
        simp [getEventById, hfind, hp]
  · cases hfind : db.find? (fun e => e.id == eventId) with
    | none => simp [getEventById, hfind, auditEventAccess, isIso8601_toIso]
    | some evt =>
      by_cases hp : passesFilter (getAuthorizedServiceFilter context) evt.serviceId <;>
        simp [getEventById, hfind, hp, auditEventAccess, isIso8601_toIso]
  · have h1 := (timeline_audits_shape db sinput.serviceId sinput.startDate sinput.endDate
      sinput.maxEvents context now).1
    simp only [generateImpactSummary]
    split <;> simp [h1]
  · have h2 := (timeline_audits_shape db sinput.serviceId sinput.startDate sinput.endDate
      sinput.maxEvents context now).2
    simp only [generateImpactSummary]
    split <;> simp [List.all_append, h2, auditEventAccess, isIso8601_toIso]

/-- C5 counterexample to the claim as stated: at these concrete inputs,
a generateImpactSummary call emits two Audit Entries (not exactly one),
and a getEventById call that returns no record emits an entry whose
success field is true (not matching the returned record count). -/
theorem query_gate_audit_claim_counterexample :
    (generateImpactSummary [] (fun _ _ => "summary") { serviceId := "svc-a" }
        { callerId := "caller", authorizedServices := ["svc-a"] } 0).audits.length = 2 ∧
    ¬ (generateImpactSummary [] (fun _ _ => "summary") { serviceId := "svc-a" }
        { callerId := "caller", authorizedServices := ["svc-a"] } 0).audits.length = 1 ∧
    (getEventById [] "e1"
        { callerId := "caller", authorizedServices := ["svc-a"] } 0).result = none ∧
    (getEventById [] "e1"
        { callerId := "caller", authorizedServices := ["svc-a"] } 0).audits.map
        AuditLogEntry.success = [true] := by
  decide

theorem resolveCallerContext_invalid_token_witness :
    (resolveCallerContext (fun s => s ++ "-digest") [] (some "nope") none 7).context.callerId =
      "invalid" ∧
    (resolveCallerContext (fun s => s ++ "-digest") [] (some "nope") none
        7).context.authorizedServices = [] ∧
    (resolveCallerContext (fun s => s ++ "-digest") [] (some "nope") none 7).audits =
      [auditAuthFailure 7 "unknown" "invalid_token" [("tokenHash", "nope-digest")]] ∧
    (auditAuthFailure 7 "unknown" "invalid_token" [("tokenHash", "nope-digest")]).callerId =
      "unknown" ∧
    (auditAuthFailure 7 "unknown" "invalid_token" [("tokenHash", "nope-digest")]).metadata =
      [("tokenHash", "nope-digest")] ∧
    (auditAuthFailure 7 "unknown" "invalid_token" [("tokenHash", "nope-digest")]).action =
      "authentication_failure" :=
  resolveCallerContext_invalid_token (fun s => s ++ "-digest") [] (some "nope") none 7
    "nope" rfl rfl

end PEI
